import Mathlib

/-!
Verification of the Migration-Script repository's cross-organization
migration engine against its natural-language specification.

The Python sources are shallowly embedded as executable Lean functions:
* HTTP sessions are reduced to a `Scope` tag (source or target) and each
  call site is recorded as a `Req` (scope, HTTP method, path).
* The remote paginated endpoints are modelled as serving pages of a fixed
  item list: page `p` (1-based, page size 100) holds
  `(src.drop ((p-1)*100)).take 100`, so the last page is short or empty.
* Remote mutable state (the target organization's secrets / variables) is
  an association list updated exactly when the modelled server accepts a
  write, mirroring the GitHub API semantics the scripts rely on
  (PUT secret is create-or-update; POST variable answers 409 when the
  name exists; PATCH variable answers 204 and overwrites).
* Python truthiness is modelled explicitly where it matters
  (empty list / empty dict / integer 0 are falsy).
-/

/-- Which of the two per-run credentials a request is issued with.
`source` is the source-organization session, `target` the target one. -/
inductive Scope where
  | source
  | target
deriving DecidableEq, Repr

/-- One HTTP request issued by the engine: the session it is issued on,
its HTTP method, and the path it addresses. -/
structure Req where
  scope : Scope
  method : String
  path : String
deriving DecidableEq, Repr

/-- A request is compatible with the read-only-source discipline iff it is
either addressed to the target scope or is a plain read. -/
def Req.okReadOnly (r : Req) : Prop := r.scope = Scope.target ∨ r.method = "GET"

instance (r : Req) : Decidable r.okReadOnly := by
  unfold Req.okReadOnly; infer_instance

namespace Pagination

/-- Response shape of a paginated listing endpoint: either a bare JSON
array of items, or a wrapper object holding the items under a named
collection key (`repositories` / `secrets` / `variables`).  A wrapper
object is truthy in Python even when its item list is empty, while a
bare empty array is falsy; this distinction is kept below. -/
inductive PageShape where
  | bare
  | wrapper
deriving DecidableEq, Repr

/-- Embedding of `GitHubSecretsMigrator._get_paginated_data` (identical in
the variables migrator), run against a simulated endpoint that serves
the item list `rest` in pages of 100.  Each loop iteration issues one
GET on session `sc`; the function returns the collected items together
with the requests issued.  The loop breaks when the decoded response is
falsy (bare shape only: a wrapper object always carries its collection
key, so it is truthy even with an empty item list) or when the page
holds fewer than 100 items; a full page advances the page counter and
loops.  There is no bound on the page counter. -/
def get_paginated_data (sc : Scope) (path : String) (shape : PageShape)
    (rest : List α) : List α × List Req :=
  if h : (rest.take 100).length < 100 then
    match shape with
    | .bare =>
      if (rest.take 100).isEmpty then ([], [⟨sc, "GET", path⟩])
      else (rest.take 100, [⟨sc, "GET", path⟩])
    | .wrapper => (rest.take 100, [⟨sc, "GET", path⟩])
  else
    (rest.take 100 ++ (get_paginated_data sc path shape (rest.drop 100)).1,
     ⟨sc, "GET", path⟩ :: (get_paginated_data sc path shape (rest.drop 100)).2)
termination_by rest.length
decreasing_by
  all_goals
    simp only [List.length_take] at h
    simp only [List.length_drop]
    omega



/-- Embedding of `get_all_repos` in `Rulesets/rulesets.py`, run against a
simulated endpoint serving the repository-name list `src` in pages of
100.  The Python loop uses a 1-based page counter; here `pageIdx` is
that counter minus one, so page `pageIdx+1` holds
`(src.drop (pageIdx*100)).take 100`.  The loop extends the result and
increments the page whenever the page is non-empty — there is no
short-page break and no bound on the page counter — and stops on the
first empty page. -/
def get_all_repos_go (sc : Scope) (path : String) (src : List String)
    (pageIdx : Nat) : List String × List Req :=
  if hdata : ((src.drop (pageIdx * 100)).take 100).isEmpty then
    ([], [⟨sc, "GET", path⟩])
  else
    ((src.drop (pageIdx * 100)).take 100 ++
       (get_all_repos_go sc path src (pageIdx + 1)).1,
     ⟨sc, "GET", path⟩ :: (get_all_repos_go sc path src (pageIdx + 1)).2)
termination_by src.length - pageIdx * 100
decreasing_by
  simp only [List.isEmpty_iff, List.take_eq_nil_iff, List.drop_eq_nil_iff,
    not_or, not_le] at hdata
  omega

/-- `get_all_repos` starts at page 1 (`pageIdx = 0`). -/
def get_all_repos (sc : Scope) (path : String) (src : List String) :
    List String × List Req :=
  get_all_repos_go sc path src 0



/-- Embedding of `GitHubRepoMigrator._get_all_paginated_items` in
`Migration/Python New/migrate_repos.py` — the one collector in the
repository with a pagination safety bound.  `pageIdx` is the Python
1-based page counter minus one.  After extending a full page the Python
code increments the counter and breaks with a warning when it exceeds
100 (`if page > 100`), i.e. when `pageIdx + 2 > 100`, capping the
result at 100 pages = 10,000 items. -/
def get_all_paginated_items_go (src : List α) (pageIdx : Nat) : List α :=
  let items := (src.drop (pageIdx * 100)).take 100
  if items.isEmpty then []
  else if items.length < 100 then items
  else if pageIdx + 2 > 100 then items
  else items ++ get_all_paginated_items_go src (pageIdx + 1)
termination_by 100 - pageIdx

/-- `_get_all_paginated_items` starts at page 1 (`pageIdx = 0`). -/
def get_all_paginated_items (src : List α) : List α :=
  get_all_paginated_items_go src 0



end Pagination

namespace RateLimit

/-- Embedding of `GitHubSecretsMigrator._handle_rate_limit` (identical in
the variables migrator).  The two rate-limit response headers are
optional integers (a missing header defaults to 0, as in
`headers.get(key, 0)`); `now` is the current epoch time in whole
seconds, and `datetime` subtraction is exact integer arithmetic here.
The function returns the number of seconds `time.sleep` blocks for
before the next request can be issued (0 when no sleep happens). -/
def handle_rate_limit (statusCode : Nat)
    (remainingHeader resetHeader : Option Int) (now : Int) : Int :=
  let rate_limit_remaining := remainingHeader.getD 0
  let rate_limit_reset := resetHeader.getD 0
  if statusCode = 429 ∨ rate_limit_remaining < 10 then
    let wait_time := (rate_limit_reset - now) + 10
    if wait_time > 0 then wait_time else 0
  else 0

end RateLimit

/-- Python-dict assignment `m[k] = v` on an association list: an existing
binding of `k` is overwritten in place, otherwise `(k, v)` is appended
in insertion order. -/
def dictSet (m : List (String × α)) (k : String) (v : α) :
    List (String × α) :=
  match m with
  | [] => [(k, v)]
  | p :: rest => if p.1 = k then (k, v) :: rest else p :: dictSet rest k v

/-- Python-dict lookup `m.get(k)` on an association list. -/
def dictGet (m : List (String × α)) (k : String) : Option α :=
  match m with
  | [] => none
  | p :: rest => if p.1 = k then some p.2 else dictGet rest k

/-- Embedding of `build_target_repo_mapping` (identical in the secrets and
variables migrators): when the cached mapping is non-empty it is
returned unchanged — the name-to-id mapping is built at most once per
run — otherwise it is built from the target organization's repository
list (pairs of name and id; entries that are not well-formed dicts are
skipped in the source and not modelled), later entries overwriting
earlier ones with the same name. -/
def build_target_repo_mapping (cache : List (String × Nat))
    (target_repos : List (String × Nat)) : List (String × Nat) :=
  if cache.isEmpty then
    target_repos.foldl (fun m r => dictSet m r.1 r.2) []
  else cache

/-- Embedding of `get_target_repository_ids` (identical in the secrets and
variables migrators): each source repository name present in the target
mapping contributes its target-scope id, in order. -/
def get_target_repository_ids (mapping : List (String × Nat))
    (repo_names : List String) : List Nat :=
  repo_names.filterMap (fun n => dictGet mapping n)

/-- The `missing_repos` list of `get_target_repository_ids`: the names
absent from the target mapping, in order.  When non-empty they are all
named in a single logged warning
(`Repositories not found in target org: ...`). -/
def missing_target_repositories (mapping : List (String × Nat))
    (repo_names : List String) : List String :=
  repo_names.filter (fun n => (dictGet mapping n).isNone)

namespace SecretsMigration

/-- The `(key, key_id)` pair returned by the organization public-key
endpoint. -/
structure PublicKeyInfo where
  key : String
  key_id : String
deriving DecidableEq, Repr

/-- Body of the PUT that creates an organization secret
(`create_organization_secret`): the sealed-box ciphertext, the key id,
the visibility, and — only when present — the translated
selected-repository ids. -/
structure SecretPayload where
  encrypted_value : String
  key_id : String
  visibility : String
  selected_repository_ids : Option (List Nat)
deriving DecidableEq, Repr

/-- The placeholder-substitution step at the top of
`create_organization_secret` / `create_repository_secret`: when the
exported value is the non-retrievable marker or is blank
(`not value.strip()` — the stripped string is empty exactly when every
character is whitespace), the well-known sentinel is substituted if
placeholder creation is enabled, and otherwise the attempt is abandoned
(`none` models the early `return False`). -/
def substitute_placeholder (value : String) (create_placeholder : Bool) :
    Option String :=
  if value = "[ENCRYPTED_SECRET_VALUE]" ∨
      value.data.all Char.isWhitespace then
    if create_placeholder then some "PLACEHOLDER_VALUE_SET_MANUALLY"
    else none
  else some value

/-- Payload construction of `create_organization_secret` (the
`data = {...}` block and the `visibility == 'selected'` branch):
`encrypt` is the sealed-box encryption with the organization public
key.  Also returns the missing-repository names reported by
`get_target_repository_ids` (empty when the branch is not taken). -/
def build_secret_payload (encrypt : String → String → String)
    (mapping : List (String × Nat)) (public_key_info : PublicKeyInfo)
    (value visibility : String) (selected_repo_names : List String) :
    SecretPayload × List String :=
  let data : SecretPayload :=
    ⟨encrypt value public_key_info.key, public_key_info.key_id,
     visibility, none⟩
  if visibility = "selected" ∧ selected_repo_names ≠ [] then
    let target_repo_ids := get_target_repository_ids mapping selected_repo_names
    if target_repo_ids ≠ [] then
      ({ data with selected_repository_ids := some target_repo_ids },
       missing_target_repositories mapping selected_repo_names)
    else
      ({ data with visibility := "private" },
       missing_target_repositories mapping selected_repo_names)
  else (data, [])

/-- The success log line of `create_organization_secret`: the action
gains a ` [PLACEHOLDER]` suffix exactly when the sentinel value was
used, signalling that a human must supply the real value afterwards. -/
def success_detail (name value visibility : String)
    (selected_repo_names : List String) : String :=
  let visibility_info :=
    " (visibility: " ++ visibility ++
      (if visibility = "selected" then
        ", repositories: " ++ toString selected_repo_names.length ++ ")"
      else ")")
  let action :=
    "Created/Updated" ++
      (if value = "PLACEHOLDER_VALUE_SET_MANUALLY" then " [PLACEHOLDER]"
       else "")
  action ++ " organization secret: " ++ name ++ visibility_info

/-- Result of one `create_organization_secret` attempt. -/
structure SecretCreateResult where
  /-- the Python return value: `none` = skipped (already exists),
  `some true` = success, `some false` = failed -/
  result : Option Bool
  /-- the target organization's secrets after the attempt
  (name to stored pre-encryption value) -/
  state : List (String × String)
  /-- body of the PUT request, when one was issued -/
  sent : Option SecretPayload
  /-- names reported missing from the target while translating the
  selected-repository set -/
  warnings : List String
  /-- the success log line, when the attempt succeeded -/
  detail : Option String
deriving Repr

/-- Embedding of `create_organization_secret`.  The remote target state
`st` maps each existing secret name to its stored value; the existence
probe (`check_organization_secret_exists`) answers 200 exactly when the
name is present, in which case the function returns `None` before
issuing any write.  `pk` is the response of the public-key fetch
(`none` models a failed fetch) and `put_accepts` whether the final PUT
returns 201/204; an accepted PUT stores the value (create-or-update on
the server). -/
def create_organization_secret (encrypt : String → String → String)
    (st : List (String × String)) (name value visibility : String)
    (selected_repo_names : List String) (create_placeholder : Bool)
    (pk : Option PublicKeyInfo) (mapping : List (String × Nat))
    (put_accepts : Bool) : SecretCreateResult :=
  if (dictGet st name).isSome then
    ⟨none, st, none, [], none⟩
  else
    match substitute_placeholder value create_placeholder with
    | none => ⟨some false, st, none, [], none⟩
    | some v =>
      match pk with
      | none => ⟨some false, st, none, [], none⟩
      | some k =>
        let pw := build_secret_payload encrypt mapping k v visibility
          selected_repo_names
        if put_accepts then
          ⟨some true, dictSet st name v, some pw.1, pw.2,
           some (success_detail name v visibility selected_repo_names)⟩
        else ⟨some false, st, some pw.1, pw.2, none⟩

end SecretsMigration

namespace VariablesMigration

/-- Body of the POST/PATCH that creates or updates an organization
variable (`create_organization_variable` /
`update_organization_variable`). -/
structure VarPayload where
  name : String
  value : String
  visibility : String
  selected_repository_ids : Option (List Nat)
deriving DecidableEq, Repr

/-- Payload construction shared by `create_organization_variable` and
`update_organization_variable` (the `data = {...}` block and the
`visibility == 'selected'` branch), together with the
missing-repository names reported by `get_target_repository_ids`. -/
def build_variable_payload (mapping : List (String × Nat))
    (name value visibility : String) (selected_repo_names : List String) :
    VarPayload × List String :=
  let data : VarPayload := ⟨name, value, visibility, none⟩
  if visibility = "selected" ∧ selected_repo_names ≠ [] then
    let target_repo_ids := get_target_repository_ids mapping selected_repo_names
    if target_repo_ids ≠ [] then
      ({ data with selected_repository_ids := some target_repo_ids },
       missing_target_repositories mapping selected_repo_names)
    else
      ({ data with visibility := "private" },
       missing_target_repositories mapping selected_repo_names)
  else (data, [])

/-- Result of one `create_organization_variable` attempt. -/
structure VarCreateResult where
  /-- the Python return value; there is no skip path for organization
  variables — both the 201 and the 409-then-update branch return True -/
  result : Bool
  /-- the target organization's variables after the attempt -/
  state : List (String × String)
  /-- body of the POST request -/
  posted : VarPayload
  /-- body of the PATCH request, when the 409-update path was taken -/
  patched : Option VarPayload
  /-- names reported missing from the target while translating the
  selected-repository set -/
  warnings : List String
deriving Repr

/-- Embedding of `create_organization_variable` together with the server
behaviour it relies on: the POST answers 409 exactly when a variable of
that name already exists, and 201 otherwise (storing the value); on 409
the code calls `update_organization_variable`, which rebuilds the
payload and PATCHes it, the server answering 204 and overwriting the
stored value.  There is no existence probe before the POST and no skip
path. -/
def create_organization_variable (st : List (String × String))
    (name value visibility : String) (selected_repo_names : List String)
    (mapping : List (String × Nat)) : VarCreateResult :=
  let pw := build_variable_payload mapping name value visibility
    selected_repo_names
  if (dictGet st name).isSome then
    let pw2 := build_variable_payload mapping name value visibility
      selected_repo_names
    ⟨true, dictSet st name value, pw.1, some pw2.1, pw.2 ++ pw2.2⟩
  else
    ⟨true, dictSet st name value, pw.1, none, pw.2⟩

end VariablesMigration

namespace Rulesets

/-- Details attached to a bypass actor during export enrichment
(`get_bypass_actor_details`): a team's stable slug, and the numeric id
stored for users and repository roles.  A field absent from the
enrichment dict is `none`. -/
structure ActorDetails where
  slug : Option String
  id : Option Int
deriving DecidableEq, Repr

/-- A bypass actor as exported with enrichment
(`enrich_bypass_actors_with_details`): the scope-local id it had in the
source organization, its type, its bypass mode, and the enrichment
details (`none` when enrichment failed). -/
structure EnrichedActor where
  original_actor_id : Int
  actor_type : String
  bypass_mode : String
  details : Option ActorDetails
deriving DecidableEq, Repr

/-- A resolved bypass actor as placed in the created ruleset's
`bypass_actors` payload list. -/
structure ResolvedActor where
  actor_id : Int
  actor_type : String
  bypass_mode : String
deriving DecidableEq, Repr

/-- Embedding of `find_existing_team_in_target`: the team is looked up by
its stable slug (never by its scope-local id) via a direct GET of
`/orgs/{target_org}/teams/{slug}` issued with the target credential;
`targetTeams` maps each slug that exists in the target organization to
its id there, and a slug with no counterpart answers 404 (`none`).  The
function never creates a team.  A missing (or empty, hence falsy) slug
in the details is an error and yields `none` without a request. -/
def find_existing_team_in_target (targetTeams : String → Option Int)
    (team_details : ActorDetails) : Option Int × List Req :=
  match team_details.slug with
  | none => (none, [])
  | some team_slug =>
    if team_slug = "" then (none, [])
    else
      (targetTeams team_slug,
       [⟨Scope.target, "GET", "/orgs/target/teams/" ++ team_slug⟩])

/-- Embedding of `find_user_in_target`: the upstream API has no reliable
user-by-id lookup, so the stored id is returned unvalidated (`none`
when absent or 0 — Python falsiness); no request is issued. -/
def find_user_in_target (user_details : ActorDetails) : Option Int :=
  match user_details.id with
  | none => none
  | some user_id => if user_id = 0 then none else some user_id

/-- One iteration of the loop in `resolve_bypass_actors_for_target`: an
actor without details is skipped with a warning; a `Team` is resolved
through `find_existing_team_in_target`, a `User` through
`find_user_in_target`, a `RepositoryRole` keeps its original id
(repository roles are portable across organizations); any other type
leaves `target_actor_id` at `None`.  The resolved actor is appended
only when the resulting id is truthy (present and non-zero); otherwise
the actor is dropped with a warning. -/
def resolve_one (targetTeams : String → Option Int) (a : EnrichedActor) :
    Option ResolvedActor × List Req :=
  match a.details with
  | none => (none, [])
  | some details =>
    let probe : Option Int × List Req :=
      if a.actor_type = "Team" then
        find_existing_team_in_target targetTeams details
      else if a.actor_type = "User" then
        (find_user_in_target details, [])
      else if a.actor_type = "RepositoryRole" then
        (some a.original_actor_id, [])
      else (none, [])
    let kept : Option ResolvedActor :=
      match probe.1 with
      | none => none
      | some target_actor_id =>
        if target_actor_id = 0 then none
        else some ⟨target_actor_id, a.actor_type, a.bypass_mode⟩
    (kept, probe.2)

/-- Embedding of `resolve_bypass_actors_for_target`: the enriched actors
are processed in order, unresolved ones dropped from the result, and
the requests of the existence probes are collected. -/
def resolve_bypass_actors_for_target (targetTeams : String → Option Int)
    (enriched_bypass_actors : List EnrichedActor) :
    List ResolvedActor × List Req :=
  (enriched_bypass_actors.filterMap
     (fun a => (resolve_one targetTeams a).1),
   enriched_bypass_actors.flatMap (fun a => (resolve_one targetTeams a).2))

end Rulesets

namespace Webhooks

/-- A repository webhook as PyGithub presents it: the config-dict fields
(`config.get('url')` can be absent), the event list, and the active
flag. -/
structure Hook where
  url : Option String
  content_type : String
  insecure_ssl : String
  events : List String
  active : Bool
deriving DecidableEq, Repr

/-- The config dict passed to `create_hook` during import. -/
structure HookConfig where
  url : Option String
  content_type : String
  insecure_ssl : String
deriving DecidableEq, Repr

/-- Migration outcome recorded per webhook (`_add_migration_result`). -/
inductive HookStatus where
  | success
  | skipped
  | failed
deriving DecidableEq, Repr

/-- The set of payload URLs already present on the target repository,
computed once before the import loop from the target's hooks — and from
their URLs only. -/
def existing_target_hooks (target_hooks : List Hook) :
    List (Option String) :=
  target_hooks.map (fun h => h.url)

/-- One iteration of the import loop in `import_webhooks`: a webhook
whose URL is in the existing-URL set is recorded as SKIPPED without any
create call; otherwise `create_hook` is called with the exported
config, events and active flag (`create_ok` models whether that call
raises a `GithubException`).  Returns the recorded status and the
config of the create call when one was issued. -/
def import_one_webhook (existing : List (Option String)) (w : Hook)
    (create_ok : Bool) : HookStatus × Option HookConfig :=
  if w.url ∈ existing then (.skipped, none)
  else if create_ok then
    (.success, some ⟨w.url, w.content_type, w.insecure_ssl⟩)
  else (.failed, some ⟨w.url, w.content_type, w.insecure_ssl⟩)

/-- The import loop of `import_webhooks` for one target repository: the
existing-URL set is computed once, before the loop, and every exported
webhook is checked against that same set. -/
def webhook_import (target_hooks : List Hook) (webhooks : List Hook)
    (create_ok : Bool) : List (HookStatus × Option HookConfig) :=
  webhooks.map
    (fun w => import_one_webhook (existing_target_hooks target_hooks) w
      create_ok)

end Webhooks

namespace ReqTrace

/-- Response data driving the source-side requests of
`fetch_all_secrets`: which listings succeed, the secret names and
per-secret detail data, and the source repository list.  Every branch
of the Python control flow that decides whether a further request is
issued is driven from these fields. -/
structure SecretsSourceOracle where
  /-- the org-secrets listing answered 200 -/
  org_secrets_status_ok : Bool
  /-- names of the organization secrets in the listing -/
  org_secret_names : List String
  /-- whether the per-secret detail GET answered 200 -/
  detail_status_ok : String → Bool
  /-- the visibility field of the detail response -/
  detail_visibility : String → String
  /-- items served by the selected-repositories endpoint of a secret -/
  selected_repos : String → List Nat
  /-- response shape used by the paginated endpoints -/
  shape : Pagination.PageShape
  /-- the source organization's repository names -/
  repos : List String

/-- Requests of `get_organization_secret_details` on the source session:
the detail GET, then — only on a 200 with selected visibility — the
paginated listing of the secret's selected repositories. -/
def get_organization_secret_details_reqs (o : SecretsSourceOracle)
    (secret_name : String) : List Req :=
  ⟨Scope.source, "GET", "/orgs/src/actions/secrets/" ++ secret_name⟩ ::
    (if o.detail_status_ok secret_name ∧
        o.detail_visibility secret_name = "selected" then
      (Pagination.get_paginated_data Scope.source
        ("/orgs/src/actions/secrets/" ++ secret_name ++ "/repositories")
        o.shape (o.selected_repos secret_name)).2
    else [])

/-- Requests of `get_organization_secrets` on the source session: the
listing GET, then the per-secret detail requests (none when the listing
failed). -/
def get_organization_secrets_reqs (o : SecretsSourceOracle) : List Req :=
  ⟨Scope.source, "GET", "/orgs/src/actions/secrets"⟩ ::
    (if o.org_secrets_status_ok then
      o.org_secret_names.flatMap
        (fun n => get_organization_secret_details_reqs o n)
    else [])

/-- Requests of `fetch_all_secrets` on the source session: the
organization secrets (with details), the paginated repository listing,
and one repository-secrets GET per source repository. -/
def fetch_all_secrets_reqs (o : SecretsSourceOracle) : List Req :=
  get_organization_secrets_reqs o ++
    (Pagination.get_paginated_data Scope.source "/orgs/src/repos"
      o.shape o.repos).2 ++
    o.repos.flatMap (fun r =>
      [⟨Scope.source, "GET", "/repos/src/" ++ r ++ "/actions/secrets"⟩])

/-- Response data driving the source-side requests of
`export_rulesets_for_repo`. -/
structure RulesetsExportOracle where
  /-- the ruleset listing answered successfully -/
  list_ok : Bool
  /-- ids of the rulesets in the listing -/
  ruleset_ids : List Nat
  /-- whether the per-ruleset detail GET succeeded -/
  detail_ok : Nat → Bool
  /-- the ENRICH_BYPASS_ACTORS configuration flag -/
  enrich : Bool
  /-- the `(actor_type, actor_id)` pairs of a ruleset's bypass actors -/
  bypass_actors : Nat → List (String × Int)

/-- Requests of `get_bypass_actor_details` during export, issued with the
source credential: only a `Team` actor requires an API call (its
team-by-id GET); users and repository roles are handled locally. -/
def get_bypass_actor_details_reqs (actor_type : String) (actor_id : Int) :
    List Req :=
  if actor_type = "Team" then
    [⟨Scope.source, "GET", "/teams/" ++ toString actor_id⟩]
  else []

/-- Requests of `export_rulesets_for_repo` on the source session: the
listing, then per ruleset its detail GET and — when enrichment is
enabled and the detail carries bypass actors — the enrichment
lookups. -/
def export_rulesets_for_repo_reqs (o : RulesetsExportOracle)
    (repo : String) : List Req :=
  ⟨Scope.source, "GET", "/repos/src/" ++ repo ++ "/rulesets"⟩ ::
    (if o.list_ok ∧ o.ruleset_ids ≠ [] then
      o.ruleset_ids.flatMap (fun i =>
        ⟨Scope.source, "GET",
          "/repos/src/" ++ repo ++ "/rulesets/" ++ toString i⟩ ::
          (if o.detail_ok i ∧ o.enrich ∧ o.bypass_actors i ≠ [] then
            (o.bypass_actors i).flatMap
              (fun a => get_bypass_actor_details_reqs a.1 a.2)
          else []))
    else [])

/-- Requests of `export_webhooks` on the source session: per CSV
repository mapping, the repository fetch and — when the repository is
accessible — the hook listing (PyGithub issues only GETs for both). -/
def export_webhooks_reqs (repo_found : String → Bool)
    (mappings : List String) : List Req :=
  mappings.flatMap (fun r =>
    ⟨Scope.source, "GET", "/repos/src/" ++ r⟩ ::
      (if repo_found r then
        [⟨Scope.source, "GET", "/repos/src/" ++ r ++ "/hooks"⟩]
      else []))

/-- Requests of one organization-secret import attempt
(`create_organization_secret`), all issued on the target session: the
existence probe, then — unless the probe answered 200 — the public-key
fetch (when not cached), the paginated target repository listing used
to build the name-to-id mapping (when the secret has selected
visibility and the mapping cache is empty), and the PUT itself.
Failure branches issue a prefix of this list. -/
def create_organization_secret_reqs (name : String)
    (exists_already pk_cached builds_mapping : Bool)
    (shape : Pagination.PageShape) (target_repos : List String) :
    List Req :=
  ⟨Scope.target, "GET", "/orgs/target/actions/secrets/" ++ name⟩ ::
    (if exists_already then []
     else
       (if pk_cached then []
        else
          [⟨Scope.target, "GET",
            "/orgs/target/actions/secrets/public-key"⟩]) ++
       (if builds_mapping then
          (Pagination.get_paginated_data Scope.target "/orgs/target/repos"
            shape target_repos).2
        else []) ++
       [⟨Scope.target, "PUT", "/orgs/target/actions/secrets/" ++ name⟩])

/-- Requests of one organization-variable import attempt
(`create_organization_variable`), all issued on the target session: the
mapping build (when needed), the POST, and — when the POST answers
409 — the PATCH of `update_organization_variable`.  Failure branches
issue a prefix of this list. -/
def create_organization_variable_reqs (name : String)
    (exists_already builds_mapping : Bool)
    (shape : Pagination.PageShape) (target_repos : List String) :
    List Req :=
  (if builds_mapping then
     (Pagination.get_paginated_data Scope.target "/orgs/target/repos"
       shape target_repos).2
   else []) ++
  ⟨Scope.target, "POST", "/orgs/target/actions/variables"⟩ ::
    (if exists_already then
      [⟨Scope.target, "PATCH",
        "/orgs/target/actions/variables/" ++ name⟩]
    else [])

/-- Requests of `import_rulesets_for_repo`, all issued on the target
session: the existing-rulesets check, then per ruleset that is not
skipped as a duplicate the team existence probes of bypass-actor
resolution followed by the creating POST. -/
def rulesets_import_repo_reqs (repo : String)
    (targetTeams : String → Option Int)
    (rulesets : List (String × List Rulesets.EnrichedActor))
    (skipped : String → Bool) : List Req :=
  ⟨Scope.target, "GET", "/repos/target/" ++ repo ++ "/rulesets"⟩ ::
    rulesets.flatMap (fun rs =>
      if skipped rs.1 then []
      else
        (Rulesets.resolve_bypass_actors_for_target targetTeams rs.2).2 ++
          [⟨Scope.target, "POST",
            "/repos/target/" ++ repo ++ "/rulesets"⟩])

/-- Requests of `import_webhooks` for one repository mapping, all issued
on the target session: the repository fetch, the hook listing, then one
create per webhook that is not deduplicated by URL. -/
def webhooks_import_repo_reqs (repo : String)
    (target_hooks webhooks : List Webhooks.Hook) : List Req :=
  ⟨Scope.target, "GET", "/repos/target/" ++ repo⟩ ::
  ⟨Scope.target, "GET", "/repos/target/" ++ repo ++ "/hooks"⟩ ::
    webhooks.flatMap (fun w =>
      match (Webhooks.import_one_webhook
          (Webhooks.existing_target_hooks target_hooks) w true).2 with
      | none => []
      | some _ =>
        [⟨Scope.target, "POST", "/repos/target/" ++ repo ++ "/hooks"⟩])

/-- All requests of one full export-plus-import run across the four
migrators, given response oracles for every branch. -/
def migration_run_reqs (o : SecretsSourceOracle)
    (oRules : RulesetsExportOracle) (ruleRepo : String)
    (repo_found : String → Bool) (hookRepos : List String)
    (secretName : String)
    (sExists sPkCached sBuildsMapping : Bool)
    (tshape : Pagination.PageShape) (target_repos : List String)
    (varName : String) (vExists vBuildsMapping : Bool)
    (targetTeams : String → Option Int)
    (rulesetsToCreate : List (String × List Rulesets.EnrichedActor))
    (skipped : String → Bool) (webhookRepo : String)
    (target_hooks webhooks : List Webhooks.Hook) : List Req :=
  fetch_all_secrets_reqs o ++
    export_rulesets_for_repo_reqs oRules ruleRepo ++
    export_webhooks_reqs repo_found hookRepos ++
    create_organization_secret_reqs secretName sExists sPkCached
      sBuildsMapping tshape target_repos ++
    create_organization_variable_reqs varName vExists vBuildsMapping
      tshape target_repos ++
    rulesets_import_repo_reqs ruleRepo targetTeams rulesetsToCreate
      skipped ++
    webhooks_import_repo_reqs webhookRepo target_hooks webhooks

end ReqTrace


/-- Helper: the collector returns exactly the simulated source list, for
both response shapes. -/
theorem Pagination.get_paginated_data_fst (sc : Scope) (path : String)
    (shape : PageShape) (rest : List α) :
    (get_paginated_data sc path shape rest).1 = rest := by
  have H : ∀ n : Nat, ∀ rest : List α, rest.length ≤ n →
      (get_paginated_data sc path shape rest).1 = rest := by
    intro n
    induction n with
    | zero =>
      intro rest h
      have hr : rest = [] := by
        cases rest with
        | nil => rfl
        | cons a l => simp at h
      subst hr
      rw [get_paginated_data.eq_def]
      cases shape <;> simp
    | succ n ih =>
      intro rest h
      rw [get_paginated_data.eq_def]
      by_cases hlen : (rest.take 100).length < 100
      · rw [dif_pos hlen]
        have htake : rest.take 100 = rest := by
          apply List.take_of_length_le
          simp only [List.length_take] at hlen
          omega
        cases shape with
        | bare =>
          by_cases hemp : (rest.take 100).isEmpty
          · have : rest = [] := by
              rw [htake] at hemp
              simpa [List.isEmpty_iff] using hemp
            simp [hemp, this]
          · rw [htake] at hemp ⊢
            simp [hemp]
        | wrapper => simpa using htake
      · rw [dif_neg hlen]
        have hdrop : (rest.drop 100).length ≤ n := by
          simp only [List.length_take] at hlen
          simp only [List.length_drop]
          omega
        show rest.take 100 ++ (get_paginated_data sc path shape (rest.drop 100)).1 = rest
        rw [ih _ hdrop]
        exact List.take_append_drop 100 rest
  exact H rest.length rest le_rfl

/-- Helper: every request the collector issues is a GET on the session it
was given. -/
theorem Pagination.get_paginated_data_reqs (sc : Scope) (path : String)
    (shape : PageShape) (rest : List α) :
    ∀ r ∈ (get_paginated_data sc path shape rest).2,
      r = ⟨sc, "GET", path⟩ := by
  have H : ∀ n : Nat, ∀ rest : List α, rest.length ≤ n →
      ∀ r ∈ (get_paginated_data sc path shape rest).2,
        r = (⟨sc, "GET", path⟩ : Req) := by
    intro n
    induction n with
    | zero =>
      intro rest h r hr
      have hnil : rest = [] := by
        cases rest with
        | nil => rfl
        | cons a l => simp at h
      subst hnil
      rw [get_paginated_data.eq_def] at hr
      cases shape <;> simpa using hr
    | succ n ih =>
      intro rest h r hr
      rw [get_paginated_data.eq_def] at hr
      by_cases hlen : (rest.take 100).length < 100
      · rw [dif_pos hlen] at hr
        cases shape with
        | bare =>
          by_cases hemp : (rest.take 100).isEmpty
          · simpa [hemp] using hr
          · simpa [hemp] using hr
        | wrapper => simpa using hr
      · rw [dif_neg hlen] at hr
        have hdrop : (rest.drop 100).length ≤ n := by
          simp only [List.length_take] at hlen
          simp only [List.length_drop]
          omega
        simp only [List.mem_cons] at hr
        rcases hr with hr | hr
        · exact hr
        · exact ih _ hdrop r hr
  exact H rest.length rest le_rfl

/-- Helper: from any starting page, `get_all_repos` collects exactly the
remaining suffix of the simulated repository list. -/
theorem Pagination.get_all_repos_go_fst (sc : Scope) (path : String)
    (src : List String) (pageIdx : Nat) :
    (get_all_repos_go sc path src pageIdx).1 = src.drop (pageIdx * 100) := by
  have H : ∀ b : Nat, ∀ pageIdx : Nat, src.length - pageIdx * 100 ≤ b →
      (get_all_repos_go sc path src pageIdx).1 = src.drop (pageIdx * 100) := by
    intro b
    induction b with
    | zero =>
      intro p hp
      have hnil : src.drop (p * 100) = [] := by
        apply List.drop_eq_nil_of_le
        omega
      rw [get_all_repos_go.eq_def]
      simp [hnil]
    | succ b ih =>
      intro p hp
      rw [get_all_repos_go.eq_def]
      by_cases hdata : ((src.drop (p * 100)).take 100).isEmpty
      · rw [dif_pos hdata]
        simp only [List.isEmpty_iff, List.take_eq_nil_iff] at hdata
        rcases hdata with hdata | hdata
        · omega
        · simp [hdata]
      · rw [dif_neg hdata]
        have hlt : p * 100 < src.length := by
          simp only [List.isEmpty_iff, List.take_eq_nil_iff,
            List.drop_eq_nil_iff, not_or, not_le] at hdata
          omega
        have hnext : src.length - (p + 1) * 100 ≤ b := by omega
        show (src.drop (p * 100)).take 100 ++
            (get_all_repos_go sc path src (p + 1)).1 = src.drop (p * 100)
        rw [ih (p + 1) hnext]
        have hdd : src.drop ((p + 1) * 100) = (src.drop (p * 100)).drop 100 := by
          rw [List.drop_drop]
          ring_nf
        rw [hdd]
        exact List.take_append_drop 100 (src.drop (p * 100))
  exact H (src.length - pageIdx * 100) pageIdx le_rfl

/-- Helper: every request `get_all_repos` issues is a GET on the session
it was given. -/
theorem Pagination.get_all_repos_go_reqs (sc : Scope) (path : String)
    (src : List String) (pageIdx : Nat) :
    ∀ r ∈ (get_all_repos_go sc path src pageIdx).2,
      r = ⟨sc, "GET", path⟩ := by
  have H : ∀ b : Nat, ∀ pageIdx : Nat, src.length - pageIdx * 100 ≤ b →
      ∀ r ∈ (get_all_repos_go sc path src pageIdx).2,
        r = (⟨sc, "GET", path⟩ : Req) := by
    intro b
    induction b with
    | zero =>
      intro p hp r hr
      have hnil : src.drop (p * 100) = [] := by
        apply List.drop_eq_nil_of_le
        omega
      rw [get_all_repos_go.eq_def] at hr
      simp [hnil] at hr
      simp [hr]
    | succ b ih =>
      intro p hp r hr
      rw [get_all_repos_go.eq_def] at hr
      by_cases hdata : ((src.drop (p * 100)).take 100).isEmpty
      · rw [dif_pos hdata] at hr
        simpa using hr
      · rw [dif_neg hdata] at hr
        have hlt : p * 100 < src.length := by
          simp only [List.isEmpty_iff, List.take_eq_nil_iff,
            List.drop_eq_nil_iff, not_or, not_le] at hdata
          omega
        have hnext : src.length - (p + 1) * 100 ≤ b := by omega
        simp only [List.mem_cons] at hr
        rcases hr with hr | hr
        · exact hr
        · exact ih (p + 1) hnext r hr
  exact H (src.length - pageIdx * 100) pageIdx le_rfl

/-- Helper: from page `pageIdx+1` on, the bounded collector returns the
suffix of the source capped at the remaining page budget. -/
theorem Pagination.get_all_paginated_items_go_eq (src : List α) (pageIdx : Nat)
    (hp : pageIdx ≤ 99) :
    get_all_paginated_items_go src pageIdx =
      (src.drop (pageIdx * 100)).take ((100 - pageIdx) * 100) := by
  have H : ∀ b : Nat, ∀ p : Nat, p ≤ 99 → 99 - p ≤ b →
      get_all_paginated_items_go src p =
        (src.drop (p * 100)).take ((100 - p) * 100) := by
    intro b
    induction b with
    | zero =>
      intro p hp99 hb
      have hp99' : p = 99 := by omega
      subst hp99'
      rw [get_all_paginated_items_go.eq_def]
      by_cases hemp : ((src.drop (99 * 100)).take 100).isEmpty
      · simp only [List.isEmpty_iff, List.take_eq_nil_iff] at hemp
        rcases hemp with hemp | hemp
        · omega
        · simp [hemp]
      · simp only [if_neg hemp]
        by_cases hshort : ((src.drop (99 * 100)).take 100).length < 100
        · rw [if_pos hshort]
        · rw [if_neg hshort, if_pos (by omega)]
    | succ b ih =>
      intro p hp99 hb
      rw [get_all_paginated_items_go.eq_def]
      by_cases hemp : ((src.drop (p * 100)).take 100).isEmpty
      · simp only [List.isEmpty_iff, List.take_eq_nil_iff] at hemp
        rcases hemp with hemp | hemp
        · omega
        · simp [hemp]
      · simp only [if_neg hemp]
        by_cases hshort : ((src.drop (p * 100)).take 100).length < 100
        · rw [if_pos hshort]
          have hlt : (src.drop (p * 100)).length < 100 := by
            simp only [List.length_take] at hshort
            omega
          rw [List.take_of_length_le (le_of_lt hlt),
            List.take_of_length_le (by omega)]
        · rw [if_neg hshort]
          by_cases hcap : p + 2 > 100
          · rw [if_pos hcap]
            have hp99' : p = 99 := by omega
            subst hp99'
            norm_num
          · rw [if_neg hcap]
            have hnext : 99 - (p + 1) ≤ b := by omega
            rw [ih (p + 1) (by omega) hnext]
            have hdd : src.drop ((p + 1) * 100) = (src.drop (p * 100)).drop 100 := by
              rw [List.drop_drop]
              ring_nf
            have hbudget : (100 - p) * 100 = 100 + (100 - (p + 1)) * 100 := by
              omega
            rw [hdd, hbudget, List.take_add]
  exact H (99 - pageIdx) pageIdx hp le_rfl

/-- Helper: the bounded collector truncates at 10,000 items (100 pages of
100): on any simulated source it returns exactly the first 10,000
items. -/
theorem Pagination.get_all_paginated_items_eq (src : List α) :
    get_all_paginated_items src = src.take 10000 := by
  have := get_all_paginated_items_go_eq src 0 (by omega)
  simpa [get_all_paginated_items] using this

section DictLemmas

/-- Overwriting or inserting a key makes it present with the new value. -/
theorem dictGet_dictSet_self (m : List (String × α)) (k : String) (v : α) :
    dictGet (dictSet m k v) k = some v := by
  induction m with
  | nil => simp [dictSet, dictGet]
  | cons p rest ih =>
    by_cases h : p.1 = k
    · simp [dictSet, dictGet, h]
    · simp [dictSet, dictGet, h, ih]

/-- The number of bindings a key has after a dict assignment: one when it
was absent, unchanged when present (the first binding is overwritten in
place). -/
theorem countP_dictSet (m : List (String × α)) (k : String) (v : α) :
    (dictSet m k v).countP (fun p => p.1 == k) =
      max ((m.countP (fun p => p.1 == k))) 1 := by
  induction m with
  | nil => simp [dictSet]
  | cons p rest ih =>
    by_cases h : p.1 = k
    · simp [dictSet, h, List.countP_cons]
    · simp [dictSet, h, List.countP_cons, ih]

/-- A key that `dictGet` cannot find has no binding at all. -/
theorem countP_eq_zero_of_dictGet_none (m : List (String × α))
    (k : String) (h : dictGet m k = none) :
    m.countP (fun p => p.1 == k) = 0 := by
  induction m with
  | nil => simp
  | cons p rest ih =>
    by_cases hp : p.1 = k
    · simp [dictGet, hp] at h
    · simp [dictGet, hp] at h
      simp [List.countP_cons, hp, ih h]

end DictLemmas

/-- C2: for every simulated paginated source of N items served in pages of
size 100 (full pages before the last, the last short or empty), the
paginated collector `_get_paginated_data` returns exactly the N items
in order — no loss, no duplication — for both bare-array responses and
wrapper-object responses carrying a named collection key.  As `src`
ranges over all lists this covers in particular the boundary cases
N = 0, N = 100 and N = 101. -/
theorem claim2_pagination_completeness (sc : Scope) (path : String)
    (shape : Pagination.PageShape) (src : List α) :
    (Pagination.get_paginated_data sc path shape src).1 = src :=
  Pagination.get_paginated_data_fst sc path shape src

/-- C3 counterexample: the paginated collector of the secrets migrator has
no page bound.  Served 10,100 items (101 consecutive full pages) it
returns all 10,100 of them — more than the claimed cap of 100 pages /
10,000 items — instead of stopping at the bound and truncating. -/
theorem claim3_counterexample :
    (Pagination.get_paginated_data Scope.source "/orgs/src/repos"
        Pagination.PageShape.bare (List.replicate 10100 (0 : Nat))).1 =
      List.replicate 10100 (0 : Nat) ∧
    10000 < (List.replicate 10100 (0 : Nat)).length := by
  constructor
  · exact Pagination.get_paginated_data_fst _ _ _ _
  · rw [List.length_replicate]
    norm_num

/-- C3 amended: the collectors cited by the claim enforce no page bound —
`get_all_repos` in `rulesets.py` (like `_get_paginated_data` in the
secrets/variables migrators, see the counterexample) keeps fetching as
long as pages are non-empty and returns the entire source.  The
100-page / 10,000-item guard with warning-and-truncate exists only in
`_get_all_paginated_items` of `Migration/Python New/migrate_repos.py`,
which returns exactly the first 10,000 items of any source. -/
theorem claim3_amended_page_bound (sc : Scope) (path : String)
    (src : List String) (items : List α) :
    (Pagination.get_all_repos sc path src).1 = src ∧
    Pagination.get_all_paginated_items items = items.take 10000 := by
  constructor
  · have h := Pagination.get_all_repos_go_fst sc path src 0
    simpa [Pagination.get_all_repos] using h
  · exact Pagination.get_all_paginated_items_eq items

/-- C6: after a response whose remaining-quota header is 0 (below the
low-water mark of 10) and whose reset header is 5 seconds in the
future, `_handle_rate_limit` sleeps for exactly reset − now + 10 = 15
seconds (reset plus the safety margin of 10), so the next call is
issued no earlier than 5 seconds later — whatever the status code. -/
theorem claim6_rate_limit_wait (statusCode : Nat) (now : Int) :
    RateLimit.handle_rate_limit statusCode (some 0) (some (now + 5)) now
        = 15 ∧
    5 ≤ RateLimit.handle_rate_limit statusCode (some 0) (some (now + 5))
        now := by
  have h : RateLimit.handle_rate_limit statusCode (some 0)
      (some (now + 5)) now = 15 := by
    unfold RateLimit.handle_rate_limit
    norm_num
  exact ⟨h, by rw [h]; norm_num⟩

/-- C9: an organization secret or variable with visibility `selected` and
an empty selected-repository name list does not take the
downgrade-to-private branch: the payload keeps visibility `selected`
and carries no `selected_repository_ids` field at all (and no
missing-repository warning is emitted). -/
theorem claim9_empty_selected_no_downgrade
    (encrypt : String → String → String) (mapping : List (String × Nat))
    (k : SecretsMigration.PublicKeyInfo) (name value : String) :
    (SecretsMigration.build_secret_payload encrypt mapping k value
        "selected" []).1.visibility = "selected" ∧
    (SecretsMigration.build_secret_payload encrypt mapping k value
        "selected" []).1.selected_repository_ids = none ∧
    (SecretsMigration.build_secret_payload encrypt mapping k value
        "selected" []).2 = [] ∧
    (VariablesMigration.build_variable_payload mapping name value
        "selected" []).1.visibility = "selected" ∧
    (VariablesMigration.build_variable_payload mapping name value
        "selected" []).1.selected_repository_ids = none ∧
    (VariablesMigration.build_variable_payload mapping name value
        "selected" []).2 = [] := by
  refine ⟨?_, ?_, ?_, ?_, ?_, ?_⟩ <;>
    simp [SecretsMigration.build_secret_payload,
      VariablesMigration.build_variable_payload]

/-- C1 counterexample: the claim quantifies over every entity, but an
organization variable that already exists in the target is not skipped
and not left unchanged.  With the target holding variable `V` with
value `old`, importing `V` with value `new` returns success (not a
skipped outcome), takes the 409-update path (a PATCH is issued), and
overwrites the stored value with `new`. -/
theorem claim1_counterexample :
    (VariablesMigration.create_organization_variable [("V", "old")] "V"
        "new" "all" [] []).result = true ∧
    (VariablesMigration.create_organization_variable [("V", "old")] "V"
        "new" "all" [] []).patched = some ⟨"V", "new", "all", none⟩ ∧
    (VariablesMigration.create_organization_variable [("V", "old")] "V"
        "new" "all" [] []).state = [("V", "new")] :=
  ⟨rfl, rfl, rfl⟩

/-- C1 amended: the idempotence guarantee holds for organization secrets —
probe-then-create, so running the same import twice against the same
target yields one success (`Created`) and one skip
(`Skipped-AlreadyExists`), never two creates, with the second run
issuing no write and leaving the target unchanged.  Organization
variables instead use create-then-update-on-conflict: the second run
again reports success (not a skip), takes the 409-update path, and
overwrites the existing target value — though it still never produces
two copies (the name keeps exactly one binding). -/
theorem claim1_amended_idempotence
    (encrypt : String → String → String)
    (st stv : List (String × String)) (name value visibility : String)
    (sel : List String) (cp : Bool) (k : SecretsMigration.PublicKeyInfo)
    (mapping : List (String × Nat)) (v : String)
    (habsent : dictGet st name = none)
    (hsub : SecretsMigration.substitute_placeholder value cp = some v)
    (hvabsent : dictGet stv name = none) :
    (SecretsMigration.create_organization_secret encrypt st name value
        visibility sel cp (some k) mapping true).result = some true ∧
    (SecretsMigration.create_organization_secret encrypt
        (SecretsMigration.create_organization_secret encrypt st name value
          visibility sel cp (some k) mapping true).state
        name value visibility sel cp (some k) mapping true).result = none ∧
    (SecretsMigration.create_organization_secret encrypt
        (SecretsMigration.create_organization_secret encrypt st name value
          visibility sel cp (some k) mapping true).state
        name value visibility sel cp (some k) mapping true).state =
      (SecretsMigration.create_organization_secret encrypt st name value
        visibility sel cp (some k) mapping true).state ∧
    (SecretsMigration.create_organization_secret encrypt
        (SecretsMigration.create_organization_secret encrypt st name value
          visibility sel cp (some k) mapping true).state
        name value visibility sel cp (some k) mapping true).sent = none ∧
    (VariablesMigration.create_organization_variable stv name value
        visibility sel mapping).result = true ∧
    (VariablesMigration.create_organization_variable stv name value
        visibility sel mapping).patched = none ∧
    (VariablesMigration.create_organization_variable
        (VariablesMigration.create_organization_variable stv name value
          visibility sel mapping).state
        name value visibility sel mapping).result = true ∧
    (VariablesMigration.create_organization_variable
        (VariablesMigration.create_organization_variable stv name value
          visibility sel mapping).state
        name value visibility sel mapping).patched.isSome = true ∧
    dictGet (VariablesMigration.create_organization_variable
        (VariablesMigration.create_organization_variable stv name value
          visibility sel mapping).state
        name value visibility sel mapping).state name = some value ∧
    ((VariablesMigration.create_organization_variable
        (VariablesMigration.create_organization_variable stv name value
          visibility sel mapping).state
        name value visibility sel mapping).state.countP
      (fun p => p.1 == name)) = 1 := by
  have hc0 : stv.countP (fun p => p.1 == name) = 0 :=
    countP_eq_zero_of_dictGet_none stv name hvabsent
  refine ⟨?_, ?_, ?_, ?_, ?_, ?_, ?_, ?_, ?_, ?_⟩ <;>
    simp [SecretsMigration.create_organization_secret,
      VariablesMigration.create_organization_variable, habsent, hsub,
      hvabsent, dictGet_dictSet_self, countP_dictSet, hc0]

/-- C1 witness: at a concrete instantiation, the second secret import is
skipped and the second variable import leaves the value in place with a
single binding. -/
theorem claim1_amended_idempotence_witness :
    (SecretsMigration.create_organization_secret (fun v _ => v)
        (SecretsMigration.create_organization_secret (fun v _ => v) []
          "S" "x" "all" [] true (some ⟨"K", "kid"⟩) [] true).state
        "S" "x" "all" [] true (some ⟨"K", "kid"⟩) [] true).result =
      none ∧
    dictGet (VariablesMigration.create_organization_variable
        (VariablesMigration.create_organization_variable [] "S" "x"
          "all" [] []).state "S" "x" "all" [] []).state "S" = some "x" := by
  have h := claim1_amended_idempotence (fun v _ => v) [] [] "S" "x"
    "all" [] true ⟨"K", "kid"⟩ [] "x" rfl (by decide) rfl
  exact ⟨h.2.1, h.2.2.2.2.2.2.2.2.1⟩

set_option maxRecDepth 8192 in
/-- C7 counterexample: for a secret whose export carries the
non-retrievable marker, the success detail recorded with placeholder
creation enabled is `Created/Updated [PLACEHOLDER] ...`, which does not
contain the literal marker `Created [PLACEHOLDER]` the claim names. -/
theorem claim7_counterexample :
    (SecretsMigration.create_organization_secret (fun v _ => v) [] "S"
        "[ENCRYPTED_SECRET_VALUE]" "all" [] true (some ⟨"K", "kid"⟩) []
        true).detail =
      some "Created/Updated [PLACEHOLDER] organization secret: S (visibility: all)" ∧
    ¬ ("Created [PLACEHOLDER]".toList <:+:
        "Created/Updated [PLACEHOLDER] organization secret: S (visibility: all)".toList) := by
  constructor
  · rfl
  · decide

/-- Helper: in every branch of the payload construction the ciphertext is
the encryption of the supplied value with the organization public
key. -/
theorem build_secret_payload_encrypted_value
    (encrypt : String → String → String) (mapping : List (String × Nat))
    (k : SecretsMigration.PublicKeyInfo) (value visibility : String)
    (sel : List String) :
    (SecretsMigration.build_secret_payload encrypt mapping k value
        visibility sel).1.encrypted_value = encrypt value k.key := by
  simp only [SecretsMigration.build_secret_payload]
  split_ifs <;> rfl

/-- C7 amended: when the exported value is the non-retrievable marker (or
blank) and the secret is absent from the target, import with
placeholder creation enabled creates it with the literal sentinel value
`PLACEHOLDER_VALUE_SET_MANUALLY` (the PUT carries its encryption), and
the recorded detail starts with the `Created/Updated [PLACEHOLDER]`
marker — the code's action string is `Created/Updated`, not the
claim's `Created` — signalling a human must supply the real value.
With placeholder creation disabled, no PUT is issued and the attempt
fails. -/
theorem claim7_amended_placeholder
    (encrypt : String → String → String)
    (st : List (String × String)) (name visibility value : String)
    (sel : List String) (k : SecretsMigration.PublicKeyInfo)
    (mapping : List (String × Nat))
    (habsent : dictGet st name = none)
    (hval : value = "[ENCRYPTED_SECRET_VALUE]" ∨
      value.data.all Char.isWhitespace) :
    (SecretsMigration.create_organization_secret encrypt st name value
        visibility sel true (some k) mapping true).result = some true ∧
    (SecretsMigration.create_organization_secret encrypt st name value
        visibility sel true (some k) mapping true).sent =
      some (SecretsMigration.build_secret_payload encrypt mapping k
        "PLACEHOLDER_VALUE_SET_MANUALLY" visibility sel).1 ∧
    (SecretsMigration.build_secret_payload encrypt mapping k
        "PLACEHOLDER_VALUE_SET_MANUALLY" visibility sel).1.encrypted_value =
      encrypt "PLACEHOLDER_VALUE_SET_MANUALLY" k.key ∧
    (∃ t, (SecretsMigration.create_organization_secret encrypt st name
        value visibility sel true (some k) mapping true).detail =
      some ("Created/Updated [PLACEHOLDER]" ++ t)) ∧
    (SecretsMigration.create_organization_secret encrypt st name value
        visibility sel false (some k) mapping true).result = some false ∧
    (SecretsMigration.create_organization_secret encrypt st name value
        visibility sel false (some k) mapping true).sent = none ∧
    (SecretsMigration.create_organization_secret encrypt st name value
        visibility sel false (some k) mapping true).state = st := by
  have hsubT : SecretsMigration.substitute_placeholder value true =
      some "PLACEHOLDER_VALUE_SET_MANUALLY" := by
    unfold SecretsMigration.substitute_placeholder
    rw [if_pos hval]
    rfl
  have hsubF : SecretsMigration.substitute_placeholder value false =
      none := by
    unfold SecretsMigration.substitute_placeholder
    rw [if_pos hval]
    rfl
  refine ⟨?_, ?_, ?_, ?_, ?_, ?_, ?_⟩
  · simp [SecretsMigration.create_organization_secret, habsent, hsubT]
  · simp [SecretsMigration.create_organization_secret, habsent, hsubT]
  · exact build_secret_payload_encrypted_value encrypt mapping k _
      visibility sel
  · refine ⟨" organization secret: " ++ name ++
      (" (visibility: " ++ visibility ++
        (if visibility = "selected" then
          ", repositories: " ++ toString sel.length ++ ")" else ")")), ?_⟩
    simp only [SecretsMigration.create_organization_secret, habsent,
      hsubT, Option.isSome_none, Bool.false_eq_true, if_false, if_true,
      SecretsMigration.success_detail]
    have hlit : ("Created/Updated [PLACEHOLDER]" : String) =
        "Created/Updated" ++ " [PLACEHOLDER]" := rfl
    rw [hlit]
    congr 1
  · simp [SecretsMigration.create_organization_secret, habsent, hsubF]
  · simp [SecretsMigration.create_organization_secret, habsent, hsubF]
  · simp [SecretsMigration.create_organization_secret, habsent, hsubF]

/-- C7 witness: at a concrete instantiation, the enabled import succeeds
and the disabled one issues no PUT. -/
theorem claim7_amended_placeholder_witness :
    (SecretsMigration.create_organization_secret (fun v _ => v) [] "S"
        "[ENCRYPTED_SECRET_VALUE]" "all" [] true (some ⟨"K", "kid"⟩) []
        true).result = some true ∧
    (SecretsMigration.create_organization_secret (fun v _ => v) [] "S"
        "[ENCRYPTED_SECRET_VALUE]" "all" [] false (some ⟨"K", "kid"⟩) []
        true).sent = none := by
  have h := claim7_amended_placeholder (fun v _ => v) [] "S" "all"
    "[ENCRYPTED_SECRET_VALUE]" [] ⟨"K", "kid"⟩ [] rfl (Or.inl rfl)
  exact ⟨h.1, h.2.2.2.2.2.1⟩

/-- Helper: dropping the elements on which `f` yields nothing does not
change a `filterMap`. -/
theorem filterMap_filter_isSome (f : α → Option β) (l : List α) :
    l.filterMap f = (l.filter (fun x => (f x).isSome)).filterMap f := by
  induction l with
  | nil => rfl
  | cons x l ih =>
    by_cases h : (f x).isSome
    · obtain ⟨y, hy⟩ := Option.isSome_iff_exists.mp h
      simp [List.filter_cons, List.filterMap_cons, h, hy, ih]
    · have hnone : f x = none := Option.not_isSome_iff_eq_none.mp h
      simp [List.filter_cons, List.filterMap_cons, h, hnone, ih]

/-- Helper: names absent from the target mapping contribute nothing to the
translated id list. -/
theorem get_target_repository_ids_exclusion
    (mapping : List (String × Nat)) (names : List String) :
    get_target_repository_ids mapping names =
      get_target_repository_ids mapping
        (names.filter (fun n => (dictGet mapping n).isSome)) := by
  unfold get_target_repository_ids
  exact filterMap_filter_isSome (fun n => dictGet mapping n) names

/-- C4: for an organization variable with visibility `selected` and a
non-empty selected-repository name set, import translates each name
through the target name-to-id mapping (built once per run: a non-empty
cache is returned unchanged); names absent from the target are excluded
from the translated set and each is named in the missing-repositories
warning; when the translated set is non-empty the POST carries
visibility `selected` and exactly the translated ids, and when it is
empty the visibility is downgraded to `private`. -/
theorem claim4_selected_visibility_translation
    (cache target_repos mapping : List (String × Nat))
    (st : List (String × String)) (name value : String)
    (sel : List String)
    (hsel : sel ≠ []) (hcache : cache ≠ []) :
    build_target_repo_mapping cache target_repos = cache ∧
    (VariablesMigration.create_organization_variable st name value
        "selected" sel mapping).posted =
      (VariablesMigration.build_variable_payload mapping name value
        "selected" sel).1 ∧
    (get_target_repository_ids mapping sel ≠ [] →
      (VariablesMigration.create_organization_variable st name value
          "selected" sel mapping).posted.visibility = "selected" ∧
      (VariablesMigration.create_organization_variable st name value
          "selected" sel mapping).posted.selected_repository_ids =
        some (get_target_repository_ids mapping sel)) ∧
    (get_target_repository_ids mapping sel = [] →
      (VariablesMigration.create_organization_variable st name value
          "selected" sel mapping).posted.visibility = "private" ∧
      (VariablesMigration.create_organization_variable st name value
          "selected" sel mapping).posted.selected_repository_ids =
        none) ∧
    get_target_repository_ids mapping sel =
      get_target_repository_ids mapping
        (sel.filter (fun n => (dictGet mapping n).isSome)) ∧
    (∀ n ∈ sel, ∀ i, dictGet mapping n = some i →
      i ∈ get_target_repository_ids mapping sel) ∧
    (∀ n ∈ sel, dictGet mapping n = none →
      n ∈ (VariablesMigration.create_organization_variable st name value
        "selected" sel mapping).warnings) := by
  have hposted : (VariablesMigration.create_organization_variable st name
      value "selected" sel mapping).posted =
        (VariablesMigration.build_variable_payload mapping name value
          "selected" sel).1 := by
    by_cases h : (dictGet st name).isSome <;>
      simp [VariablesMigration.create_organization_variable, h]
  have hwarn : ∀ n ∈ sel, dictGet mapping n = none →
      n ∈ (VariablesMigration.create_organization_variable st name value
        "selected" sel mapping).warnings := by
    intro n hn hnone
    have hmiss : n ∈ missing_target_repositories mapping sel :=
      List.mem_filter.mpr ⟨hn, by simp [hnone]⟩
    have hpw : (VariablesMigration.build_variable_payload mapping name
        value "selected" sel).2 =
          missing_target_repositories mapping sel := by
      unfold VariablesMigration.build_variable_payload
      rw [if_pos ⟨rfl, hsel⟩]
      dsimp only
      split_ifs <;> rfl
    by_cases h : (dictGet st name).isSome <;>
      simp [VariablesMigration.create_organization_variable, h, hpw,
        hmiss]
  refine ⟨?_, hposted, ?_, ?_, ?_, ?_, hwarn⟩
  · rw [build_target_repo_mapping,
      if_neg (by simpa [List.isEmpty_iff] using hcache)]
  · intro hids
    rw [hposted]
    unfold VariablesMigration.build_variable_payload
    rw [if_pos ⟨rfl, hsel⟩]
    dsimp only
    rw [if_pos hids]
    exact ⟨rfl, rfl⟩
  · intro hids
    rw [hposted]
    unfold VariablesMigration.build_variable_payload
    rw [if_pos ⟨rfl, hsel⟩]
    dsimp only
    rw [if_neg (by simp [hids])]
    exact ⟨rfl, rfl⟩
  · exact get_target_repository_ids_exclusion mapping sel
  · intro n hn i hi
    exact List.mem_filterMap.mpr ⟨n, hn, hi⟩
  
/-- C4 witness: the specification scenario — variable `API_KEY` selected
for `svc-a` and `svc-b`, target holding only `svc-a` (id 101) — is
created with the translated set `[101]` and a warning naming
`svc-b`. -/
theorem claim4_selected_visibility_translation_witness :
    (VariablesMigration.create_organization_variable [] "API_KEY" "val"
        "selected" ["svc-a", "svc-b"]
        [("svc-a", 101)]).posted.selected_repository_ids = some [101] ∧
    "svc-b" ∈ (VariablesMigration.create_organization_variable []
        "API_KEY" "val" "selected" ["svc-a", "svc-b"]
        [("svc-a", 101)]).warnings := by
  have h := claim4_selected_visibility_translation [("cache", 1)] []
    [("svc-a", 101)] [] "API_KEY" "val" ["svc-a", "svc-b"] (by decide)
    (by decide)
  refine ⟨?_, ?_⟩
  · have h3 := (h.2.2.1 (by decide)).2
    rw [h3]
    rfl
  · exact h.2.2.2.2.2.2 "svc-b" (by decide) (by decide)

/-- Helper: every request issued during bypass-actor resolution is a GET
on the target scope (the only call site is the team existence probe; no
create is ever issued). -/
theorem resolve_one_req_reads (tt : String → Option Int)
    (a : Rulesets.EnrichedActor) :
    ∀ r ∈ (Rulesets.resolve_one tt a).2,
      r.scope = Scope.target ∧ r.method = "GET" := by
  intro r hr
  unfold Rulesets.resolve_one at hr
  cases hd : a.details with
  | none => rw [hd] at hr; simp at hr
  | some d =>
    rw [hd] at hr
    dsimp only at hr
    by_cases h1 : a.actor_type = "Team"
    · rw [if_pos h1] at hr
      unfold Rulesets.find_existing_team_in_target at hr
      cases hs : d.slug with
      | none => rw [hs] at hr; simp at hr
      | some s =>
        rw [hs] at hr
        dsimp only at hr
        by_cases he : s = ""
        · rw [if_pos he] at hr; simp at hr
        · rw [if_neg he] at hr
          simp at hr
          simp [hr]
    · rw [if_neg h1] at hr
      split_ifs at hr <;> simp at hr

/-- C5: during ruleset import a `Team` bypass actor is resolved by its
slug through an existence probe of the target scope: when the slug has
no counterpart there the actor is dropped from the resolved list (and
no team is ever created — resolution issues only GET probes), and when
it is found the actor carries the target-scope team id.  A
`RepositoryRole` actor passes through with its original id unchanged
(role ids are the fixed non-zero vocabulary 1–5).  The loop keeps
exactly the per-actor resolutions, dropping unresolved actors. -/
theorem claim5_bypass_actor_resolution
    (targetTeams : String → Option Int)
    (actors : List Rulesets.EnrichedActor)
    (a : Rulesets.EnrichedActor) (d : Rulesets.ActorDetails) (s : String)
    (hd : a.details = some d) :
    (Rulesets.resolve_bypass_actors_for_target targetTeams actors).1 =
      actors.filterMap (fun x => (Rulesets.resolve_one targetTeams x).1) ∧
    (a.actor_type = "Team" → d.slug = some s → s ≠ "" →
      targetTeams s = none →
      (Rulesets.resolve_one targetTeams a).1 = none) ∧
    (a.actor_type = "Team" → d.slug = some s → s ≠ "" →
      ∀ i, targetTeams s = some i → i ≠ 0 →
        (Rulesets.resolve_one targetTeams a).1 =
          some ⟨i, a.actor_type, a.bypass_mode⟩) ∧
    (a.actor_type = "RepositoryRole" → a.original_actor_id ≠ 0 →
      (Rulesets.resolve_one targetTeams a).1 =
        some ⟨a.original_actor_id, a.actor_type, a.bypass_mode⟩) ∧
    (∀ r ∈ (Rulesets.resolve_bypass_actors_for_target targetTeams
        actors).2, r.method = "GET") := by
  refine ⟨rfl, ?_, ?_, ?_, ?_⟩
  · intro ht hs hne htt
    unfold Rulesets.resolve_one
    rw [hd]
    dsimp only
    rw [if_pos ht]
    unfold Rulesets.find_existing_team_in_target
    rw [hs]
    dsimp only
    rw [if_neg hne]
    simp [htt]
  · intro ht hs hne i htt hi
    unfold Rulesets.resolve_one
    rw [hd]
    dsimp only
    rw [if_pos ht]
    unfold Rulesets.find_existing_team_in_target
    rw [hs]
    dsimp only
    rw [if_neg hne]
    simp [htt, hi, ht]
  · intro ht hi
    unfold Rulesets.resolve_one
    rw [hd]
    dsimp only
    rw [if_neg (by rw [ht]; decide), if_neg (by rw [ht]; decide),
      if_pos ht]
    simp [hi]
  · intro r hr
    unfold Rulesets.resolve_bypass_actors_for_target at hr
    dsimp only at hr
    rcases List.mem_flatMap.mp hr with ⟨x, hx, hrx⟩
    exact (resolve_one_req_reads targetTeams x r hrx).2

/-- C5 witness: with the target owning only team `devs`, a `Team` actor
with slug `ghost` is dropped and a `RepositoryRole` actor with id 5
passes through unchanged. -/
theorem claim5_bypass_actor_resolution_witness :
    (Rulesets.resolve_one (fun s => if s = "devs" then some 77 else none)
        ⟨10, "Team", "always", some ⟨some "ghost", none⟩⟩).1 = none ∧
    (Rulesets.resolve_one (fun s => if s = "devs" then some 77 else none)
        ⟨5, "RepositoryRole", "pull_request", some ⟨none, some 5⟩⟩).1 =
      some ⟨5, "RepositoryRole", "pull_request"⟩ := by
  have h1 := claim5_bypass_actor_resolution
    (fun s => if s = "devs" then some 77 else none) []
    ⟨10, "Team", "always", some ⟨some "ghost", none⟩⟩
    ⟨some "ghost", none⟩ "ghost" rfl
  have h2 := claim5_bypass_actor_resolution
    (fun s => if s = "devs" then some 77 else none) []
    ⟨5, "RepositoryRole", "pull_request", some ⟨none, some 5⟩⟩
    ⟨none, some 5⟩ "x" rfl
  exact ⟨h1.2.1 rfl rfl (by decide) (by decide),
    h2.2.2.2.1 rfl (by decide)⟩

/-- C10: webhook import deduplicates solely by payload URL against the
URL set of the hooks already on the target repository, computed once
before the loop.  A webhook whose URL equals the URL of any existing
hook is recorded SKIPPED and no create call is issued — whatever the
existing hook's events, content type, insecure-ssl setting or active
flag — and a webhook whose URL is absent is created with the exported
config. -/
theorem claim10_webhook_dedup_by_url
    (target_hooks webhooks : List Webhooks.Hook) (w : Webhooks.Hook)
    (create_ok : Bool) :
    Webhooks.webhook_import target_hooks webhooks create_ok =
      webhooks.map (fun x => Webhooks.import_one_webhook
        (Webhooks.existing_target_hooks target_hooks) x create_ok) ∧
    ((∃ h ∈ target_hooks, h.url = w.url) →
      Webhooks.import_one_webhook
        (Webhooks.existing_target_hooks target_hooks) w create_ok =
        (Webhooks.HookStatus.skipped, none)) ∧
    ((∀ h ∈ target_hooks, h.url ≠ w.url) → create_ok = true →
      Webhooks.import_one_webhook
        (Webhooks.existing_target_hooks target_hooks) w create_ok =
        (Webhooks.HookStatus.success,
         some ⟨w.url, w.content_type, w.insecure_ssl⟩)) := by
  refine ⟨rfl, ?_, ?_⟩
  · rintro ⟨h, hh, hurl⟩
    have hmem : w.url ∈ Webhooks.existing_target_hooks target_hooks :=
      List.mem_map.mpr ⟨h, hh, hurl⟩
    simp [Webhooks.import_one_webhook, hmem]
  · intro hall hok
    have hmem : w.url ∉ Webhooks.existing_target_hooks target_hooks := by
      intro hmem
      rcases List.mem_map.mp hmem with ⟨h, hh, hurl⟩
      exact hall h hh hurl
    subst hok
    simp [Webhooks.import_one_webhook, hmem]

/-- C10 witness: a target hook and an exported webhook that share only
their URL (all other fields differ) produce a skip with no create call;
a webhook with a fresh URL is created. -/
theorem claim10_webhook_dedup_by_url_witness :
    Webhooks.import_one_webhook
      (Webhooks.existing_target_hooks
        [⟨some "https://hook.example/a", "form", "1", ["push"], false⟩])
      ⟨some "https://hook.example/a", "json", "0", ["issues"], true⟩
      true = (Webhooks.HookStatus.skipped, none) ∧
    Webhooks.import_one_webhook
      (Webhooks.existing_target_hooks
        [⟨some "https://hook.example/a", "form", "1", ["push"], false⟩])
      ⟨some "https://hook.example/b", "json", "0", ["issues"], true⟩
      true = (Webhooks.HookStatus.success,
        some ⟨some "https://hook.example/b", "json", "0"⟩) := by
  have h1 := claim10_webhook_dedup_by_url
    [⟨some "https://hook.example/a", "form", "1", ["push"], false⟩] []
    ⟨some "https://hook.example/a", "json", "0", ["issues"], true⟩ true
  have h2 := claim10_webhook_dedup_by_url
    [⟨some "https://hook.example/a", "form", "1", ["push"], false⟩] []
    ⟨some "https://hook.example/b", "json", "0", ["issues"], true⟩ true
  refine ⟨h1.2.1 ⟨⟨some "https://hook.example/a", "form", "1", ["push"],
    false⟩, by decide, rfl⟩, h2.2.2 (by decide) rfl⟩

/-- Helper: the source-side secrets export issues only GETs. -/
theorem fetch_all_secrets_reqs_ok (o : ReqTrace.SecretsSourceOracle) :
    ∀ r ∈ ReqTrace.fetch_all_secrets_reqs o, r.okReadOnly := by
  intro r hr
  unfold ReqTrace.fetch_all_secrets_reqs at hr
  rcases List.mem_append.mp hr with hr | hr
  · rcases List.mem_append.mp hr with hr | hr
    · unfold ReqTrace.get_organization_secrets_reqs at hr
      rcases List.mem_cons.mp hr with hr | hr
      · rw [hr]; exact Or.inr rfl
      · by_cases hok : o.org_secrets_status_ok
        · rw [if_pos hok] at hr
          rcases List.mem_flatMap.mp hr with ⟨n, hn, hrn⟩
          unfold ReqTrace.get_organization_secret_details_reqs at hrn
          rcases List.mem_cons.mp hrn with hrn | hrn
          · rw [hrn]; exact Or.inr rfl
          · by_cases hcond : o.detail_status_ok n ∧
                o.detail_visibility n = "selected"
            · rw [if_pos hcond] at hrn
              rw [Pagination.get_paginated_data_reqs Scope.source _
                o.shape (o.selected_repos n) r hrn]
              exact Or.inr rfl
            · rw [if_neg hcond] at hrn
              simp at hrn
        · rw [if_neg hok] at hr
          simp at hr
    · rw [Pagination.get_paginated_data_reqs Scope.source _ o.shape
        o.repos r hr]
      exact Or.inr rfl
  · rcases List.mem_flatMap.mp hr with ⟨repo, hrepo, hrr⟩
    simp only [List.mem_singleton] at hrr
    rw [hrr]; exact Or.inr rfl

/-- Helper: the source-side rulesets export (with bypass-actor
enrichment) issues only GETs. -/
theorem export_rulesets_for_repo_reqs_ok
    (o : ReqTrace.RulesetsExportOracle) (repo : String) :
    ∀ r ∈ ReqTrace.export_rulesets_for_repo_reqs o repo,
      r.okReadOnly := by
  intro r hr
  unfold ReqTrace.export_rulesets_for_repo_reqs at hr
  rcases List.mem_cons.mp hr with hr | hr
  · rw [hr]; exact Or.inr rfl
  · by_cases hl : o.list_ok ∧ o.ruleset_ids ≠ []
    · rw [if_pos hl] at hr
      rcases List.mem_flatMap.mp hr with ⟨i, hi, hri⟩
      rcases List.mem_cons.mp hri with hri | hri
      · rw [hri]; exact Or.inr rfl
      · by_cases hdet : o.detail_ok i ∧ o.enrich ∧ o.bypass_actors i ≠ []
        · rw [if_pos hdet] at hri
          rcases List.mem_flatMap.mp hri with ⟨a, ha, hra⟩
          unfold ReqTrace.get_bypass_actor_details_reqs at hra
          by_cases hT : a.1 = "Team"
          · rw [if_pos hT] at hra
            simp only [List.mem_singleton] at hra
            rw [hra]; exact Or.inr rfl
          · rw [if_neg hT] at hra
            simp at hra
        · rw [if_neg hdet] at hri
          simp at hri
    · rw [if_neg hl] at hr
      simp at hr

/-- Helper: the source-side webhooks export issues only GETs. -/
theorem export_webhooks_reqs_ok (repo_found : String → Bool)
    (mappings : List String) :
    ∀ r ∈ ReqTrace.export_webhooks_reqs repo_found mappings,
      r.okReadOnly := by
  intro r hr
  unfold ReqTrace.export_webhooks_reqs at hr
  rcases List.mem_flatMap.mp hr with ⟨m, hm, hrm⟩
  rcases List.mem_cons.mp hrm with hrm | hrm
  · rw [hrm]; exact Or.inr rfl
  · by_cases hf : repo_found m
    · rw [if_pos hf] at hrm
      simp only [List.mem_singleton] at hrm
      rw [hrm]; exact Or.inr rfl
    · rw [if_neg hf] at hrm
      simp at hrm

/-- Helper: every request of a secret import attempt is on the target
session. -/
theorem create_organization_secret_reqs_ok (name : String)
    (e p b : Bool) (shape : Pagination.PageShape) (tr : List String) :
    ∀ r ∈ ReqTrace.create_organization_secret_reqs name e p b shape tr,
      r.okReadOnly := by
  intro r hr
  unfold ReqTrace.create_organization_secret_reqs at hr
  rcases List.mem_cons.mp hr with hr | hr
  · rw [hr]; exact Or.inl rfl
  · by_cases he : e
    · rw [if_pos he] at hr
      simp at hr
    · rw [if_neg he] at hr
      rcases List.mem_append.mp hr with hr | hr
      · rcases List.mem_append.mp hr with hr | hr
        · by_cases hp : p
          · rw [if_pos hp] at hr; simp at hr
          · rw [if_neg hp] at hr
            simp only [List.mem_singleton] at hr
            rw [hr]; exact Or.inl rfl
        · by_cases hb : b
          · rw [if_pos hb] at hr
            rw [Pagination.get_paginated_data_reqs Scope.target _ shape
              tr r hr]
            exact Or.inl rfl
          · rw [if_neg hb] at hr; simp at hr
      · simp only [List.mem_singleton] at hr
        rw [hr]; exact Or.inl rfl

/-- Helper: every request of a variable import attempt is on the target
session. -/
theorem create_organization_variable_reqs_ok (name : String)
    (e b : Bool) (shape : Pagination.PageShape) (tr : List String) :
    ∀ r ∈ ReqTrace.create_organization_variable_reqs name e b shape tr,
      r.okReadOnly := by
  intro r hr
  unfold ReqTrace.create_organization_variable_reqs at hr
  rcases List.mem_append.mp hr with hr | hr
  · by_cases hb : b
    · rw [if_pos hb] at hr
      rw [Pagination.get_paginated_data_reqs Scope.target _ shape tr
        r hr]
      exact Or.inl rfl
    · rw [if_neg hb] at hr; simp at hr
  · rcases List.mem_cons.mp hr with hr | hr
    · rw [hr]; exact Or.inl rfl
    · by_cases he : e
      · rw [if_pos he] at hr
        simp only [List.mem_singleton] at hr
        rw [hr]; exact Or.inl rfl
      · rw [if_neg he] at hr; simp at hr

/-- Helper: every request of the rulesets import is on the target
session. -/
theorem rulesets_import_repo_reqs_ok (repo : String)
    (tt : String → Option Int)
    (rs : List (String × List Rulesets.EnrichedActor))
    (skipped : String → Bool) :
    ∀ r ∈ ReqTrace.rulesets_import_repo_reqs repo tt rs skipped,
      r.okReadOnly := by
  intro r hr
  unfold ReqTrace.rulesets_import_repo_reqs at hr
  rcases List.mem_cons.mp hr with hr | hr
  · rw [hr]; exact Or.inl rfl
  · rcases List.mem_flatMap.mp hr with ⟨x, hx, hrx⟩
    by_cases hs : skipped x.1
    · rw [if_pos hs] at hrx; simp at hrx
    · rw [if_neg hs] at hrx
      rcases List.mem_append.mp hrx with hrx | hrx
      · unfold Rulesets.resolve_bypass_actors_for_target at hrx
        dsimp only at hrx
        rcases List.mem_flatMap.mp hrx with ⟨a, ha, hra⟩
        exact Or.inl (resolve_one_req_reads tt a r hra).1
      · simp only [List.mem_singleton] at hrx
        rw [hrx]; exact Or.inl rfl

/-- Helper: every request of the webhooks import is on the target
session. -/
theorem webhooks_import_repo_reqs_ok (repo : String)
    (th wh : List Webhooks.Hook) :
    ∀ r ∈ ReqTrace.webhooks_import_repo_reqs repo th wh,
      r.okReadOnly := by
  intro r hr
  unfold ReqTrace.webhooks_import_repo_reqs at hr
  rcases List.mem_cons.mp hr with hr | hr
  · rw [hr]; exact Or.inl rfl
  · rcases List.mem_cons.mp hr with hr | hr
    · rw [hr]; exact Or.inl rfl
    · rcases List.mem_flatMap.mp hr with ⟨w, hw, hrw⟩
      cases hc : (Webhooks.import_one_webhook
          (Webhooks.existing_target_hooks th) w true).2 with
      | none => rw [hc] at hrw; simp at hrw
      | some c =>
        rw [hc] at hrw
        simp only [List.mem_singleton] at hrw
        rw [hrw]; exact Or.inl rfl

/-- C8: across export and migration the engine never mutates the source
scope — every request issued on the source-scope session is an HTTP
GET, and every create, update or delete request (any non-GET method:
PUT, POST, PATCH) is issued on the target scope only — for every
combination of server responses driving the run. -/
theorem claim8_source_read_only (o : ReqTrace.SecretsSourceOracle)
    (oRules : ReqTrace.RulesetsExportOracle) (ruleRepo : String)
    (repo_found : String → Bool) (hookRepos : List String)
    (secretName : String) (sExists sPkCached sBuildsMapping : Bool)
    (tshape : Pagination.PageShape) (target_repos : List String)
    (varName : String) (vExists vBuildsMapping : Bool)
    (targetTeams : String → Option Int)
    (rulesetsToCreate : List (String × List Rulesets.EnrichedActor))
    (skipped : String → Bool) (webhookRepo : String)
    (target_hooks webhooks : List Webhooks.Hook) :
    ∀ r ∈ ReqTrace.migration_run_reqs o oRules ruleRepo repo_found
        hookRepos secretName sExists sPkCached sBuildsMapping tshape
        target_repos varName vExists vBuildsMapping targetTeams
        rulesetsToCreate skipped webhookRepo target_hooks webhooks,
      (r.scope = Scope.source → r.method = "GET") ∧
      (r.method ≠ "GET" → r.scope = Scope.target) := by
  intro r hr
  have hok : r.okReadOnly := by
    unfold ReqTrace.migration_run_reqs at hr
    rcases List.mem_append.mp hr with hr | hg
    · rcases List.mem_append.mp hr with hr | hf
      · rcases List.mem_append.mp hr with hr | he
        · rcases List.mem_append.mp hr with hr | hd2
          · rcases List.mem_append.mp hr with hr | hc2
            · rcases List.mem_append.mp hr with ha2 | hb2
              · exact fetch_all_secrets_reqs_ok o r ha2
              · exact export_rulesets_for_repo_reqs_ok oRules ruleRepo
                  r hb2
            · exact export_webhooks_reqs_ok repo_found hookRepos r hc2
          · exact create_organization_secret_reqs_ok secretName sExists
              sPkCached sBuildsMapping tshape target_repos r hd2
        · exact create_organization_variable_reqs_ok varName vExists
            vBuildsMapping tshape target_repos r he
      · exact rulesets_import_repo_reqs_ok ruleRepo targetTeams
          rulesetsToCreate skipped r hf
    · exact webhooks_import_repo_reqs_ok webhookRepo target_hooks
        webhooks r hg
  constructor
  · intro hsrc
    rcases hok with ht | hg
    · rw [hsrc] at ht
      exact absurd ht (by decide)
    · exact hg
  · intro hm
    rcases hok with ht | hg
    · exact ht
    · exact absurd hg hm

/-- C8 witness: the first request of the run — the source-session
organization-secrets listing — is a GET. -/
theorem claim8_source_read_only_witness :
    (Req.mk Scope.source "GET" "/orgs/src/actions/secrets").method =
      "GET" :=
  (claim8_source_read_only
    ⟨true, [], fun _ => true, fun _ => "all", fun _ => [],
      Pagination.PageShape.bare, []⟩
    ⟨true, [], fun _ => true, true, fun _ => []⟩ "r" (fun _ => true) []
    "S" false false false Pagination.PageShape.bare [] "V" false false
    (fun _ => none) [] (fun _ => false) "w" [] []
    ⟨Scope.source, "GET", "/orgs/src/actions/secrets"⟩
    (by simp [ReqTrace.migration_run_reqs,
      ReqTrace.fetch_all_secrets_reqs,
      ReqTrace.get_organization_secrets_reqs])).1 rfl
